import Mathlib

/-!
Shallow embedding of the task-manager server core: the credential manager
(registerUser, loginUser with hashPassword / verifyPassword) and the task
store gateway (getUserTasks, updateTask, deleteTask, shareTask), together
with the relevant input-schema checks.

The relational store is modelled as an explicit state: a list of user rows
and a list of task rows.  Each handler is a pure function from the store
state and a validated input to a result (an `Except` for the classified
failure messages the handlers throw) and, for mutating handlers, the new
store state.  External cryptographic primitives (Bun's bcrypt hasher and
node's sha256) are parameters of the functions that call them, since their
code is not part of this repository; everything else follows the handler
code line by line.
-/

/-- A row of the `users` table (`db/schema.ts`): serial id, unique email,
password_hash text, created_at timestamp. -/
structure UserRow where
  id : Nat
  email : String
  password_hash : String
  created_at : Int
  deriving Repr, DecidableEq

/-- A row of the `tasks` table (`db/schema.ts`). -/
structure TaskRow where
  id : Nat
  user_id : Nat
  title : String
  description : String
  due_date : Int
  completed : Bool
  created_at : Int
  deriving Repr, DecidableEq

/-- The relational store: the two tables the handlers touch. -/
structure DB where
  users : List UserRow
  tasks : List TaskRow
  deriving Repr, DecidableEq

/-- Input of `registerUser` (schema.ts `registerUserInputSchema`). -/
structure RegisterUserInput where
  email : String
  password : String
  deriving Repr, DecidableEq

/-- Input of `loginUser` (schema.ts `loginUserInputSchema`). -/
structure LoginUserInput where
  email : String
  password : String
  deriving Repr, DecidableEq

/-- Input of `updateTask` (schema.ts `updateTaskInputSchema`): the id plus
four optional fields.  Note there is no `user_id` field. -/
structure UpdateTaskInput where
  id : Nat
  title : Option String
  description : Option String
  due_date : Option Int
  completed : Option Bool
  deriving Repr, DecidableEq

/-- Input of `deleteTask` (schema.ts `deleteTaskInputSchema`). -/
structure DeleteTaskInput where
  id : Nat
  user_id : Nat
  deriving Repr, DecidableEq

/-- Input of `shareTask` (schema.ts `shareTaskInputSchema`). -/
structure ShareTaskInput where
  id : Nat
  user_id : Nat
  deriving Repr, DecidableEq

/-- The public user projection returned by registerUser / loginUser:
id, email, created_at, never the credential. -/
structure PublicUser where
  id : Nat
  email : String
  created_at : Int
  deriving Repr, DecidableEq

/-- Value of one hexadecimal digit, `none` on a non-hex character. -/
def hexDigitVal (c : Char) : Option Nat :=
  if '0' ≤ c ∧ c ≤ '9' then some (c.toNat - '0'.toNat)
  else if 'a' ≤ c ∧ c ≤ 'f' then some (c.toNat - 'a'.toNat + 10)
  else if 'A' ≤ c ∧ c ≤ 'F' then some (c.toNat - 'A'.toNat + 10)
  else none

/-- Bytes of `Buffer.from(s, 'hex')`: node decodes hex pairs from the left
and stops at the first invalid or incomplete pair. -/
def hexBytes : List Char → List Nat
  | c1 :: c2 :: rest =>
    match hexDigitVal c1, hexDigitVal c2 with
    | some h, some l => (16 * h + l) :: hexBytes rest
    | _, _ => []
  | _ => []

/-- `timingSafeEqual(Buffer.from(a,'hex'), Buffer.from(b,'hex'))` wrapped in
the handler's try/catch: the call throws when the byte lengths differ (the
catch returns false) and otherwise compares the bytes, so the net result is
byte-list equality. -/
def timingSafeEqHex (a b : String) : Bool :=
  hexBytes a.data == hexBytes b.data

/-- login_user.ts `hashPassword`: sha256 hex digest of `password + salt`.
The digest itself is the `sha256hex` parameter (external crypto library). -/
def hashPassword (sha256hex : String → String) (password salt : String) : String :=
  sha256hex (password ++ salt)

/-- Helper for `jsSplit`: walk the characters, cutting at each separator. -/
def jsSplitAux (sep : Char) : List Char → List Char → List String
  | [], acc => [String.mk acc.reverse]
  | c :: rest, acc =>
    if c = sep then String.mk acc.reverse :: jsSplitAux sep rest []
    else jsSplitAux sep rest (c :: acc)

/-- JavaScript `s.split(sep)` for a one-character separator: splits at every
occurrence, keeping empty pieces, and yields `[s]` when the separator does
not occur (in particular `[""]` on the empty string). -/
def jsSplit (sep : Char) (s : String) : List String :=
  jsSplitAux sep s.data []

/-- login_user.ts `verifyPassword`: split the stored credential on `:` and
take the first two pieces as salt and hash (a falsy — missing or empty —
piece fails closed), recompute the hash from the supplied password and
extracted salt, and compare with the timing-safe hex comparison. -/
def verifyPassword (sha256hex : String → String) (password storedHash : String) : Bool :=
  let parts := jsSplit ':' storedHash
  let salt := parts.getD 0 ""
  let hash := parts.getD 1 ""
  if salt = "" || hash = "" then false
  else timingSafeEqHex hash (hashPassword sha256hex password salt)

/-- loginUser handler: select the user by exact email equality; absent user
and failed password verification both throw the same
`Invalid email or password`; on success return the public projection. -/
def loginUser (sha256hex : String → String) (db : DB) (input : LoginUserInput) :
    Except String PublicUser :=
  match db.users.find? (fun u => u.email == input.email) with
  | none => .error "Invalid email or password"
  | some user =>
    if verifyPassword sha256hex input.password user.password_hash then
      .ok ⟨user.id, user.email, user.created_at⟩
    else
      .error "Invalid email or password"

/-- Serial id the store assigns to the next inserted user row. -/
def freshUserId (db : DB) : Nat :=
  db.users.foldl (fun acc u => max acc u.id) 0 + 1

/-- registerUser handler: select by exact email equality and throw
`Email already registered` on a hit; otherwise hash the password with
`Bun.password.hash` (the `bcryptHash` parameter, external library), insert
the row and return the public projection.  `now` stands for the store's
`defaultNow()` timestamp. -/
def registerUser (bcryptHash : String → String) (now : Int) (db : DB)
    (input : RegisterUserInput) : (Except String PublicUser) × DB :=
  match db.users.find? (fun u => u.email == input.email) with
  | some _ => (.error "Email already registered", db)
  | none =>
    let uid := freshUserId db
    let row : UserRow := ⟨uid, input.email, bcryptHash input.password, now⟩
    (.ok ⟨uid, input.email, now⟩, { db with users := db.users ++ [row] })

/-- Order used by getUserTasks' `orderBy(asc(tasksTable.due_date))`. -/
def dueLe (a b : TaskRow) : Prop :=
  a.due_date ≤ b.due_date

instance : DecidableRel dueLe := fun a b =>
  inferInstanceAs (Decidable (a.due_date ≤ b.due_date))

instance : IsTotal TaskRow dueLe :=
  ⟨fun a b => Int.le_total a.due_date b.due_date⟩

instance : IsTrans TaskRow dueLe :=
  ⟨fun _ _ _ h1 h2 => le_trans h1 h2⟩

/-- getUserTasks handler: select the rows with the given user_id ordered
ascending by due_date and nothing else.  The select is modelled as a stable
sort of the store's row order, which is all the query requests: there is no
secondary sort key in the code. -/
def getUserTasks (db : DB) (user_id : Nat) : List TaskRow :=
  List.insertionSort dueLe (db.tasks.filter fun t => t.user_id == user_id)

/-- Order the spec describes for list: ascending due_date with ties broken
by id ascending.  Stated from the spec's words, for comparison with
`getUserTasks`; the handler code does not implement the id tie-break. -/
def dueIdLe (a b : TaskRow) : Prop :=
  a.due_date < b.due_date ∨ (a.due_date = b.due_date ∧ a.id ≤ b.id)

instance : DecidableRel dueIdLe := fun a b =>
  inferInstanceAs (Decidable (a.due_date < b.due_date ∨ (a.due_date = b.due_date ∧ a.id ≤ b.id)))

/-- List operation as the spec words it (due_date ascending, id tie-break). -/
def getUserTasksSpecOrder (db : DB) (user_id : Nat) : List TaskRow :=
  List.insertionSort dueIdLe (db.tasks.filter fun t => t.user_id == user_id)

/-- updateTask's `updateData` object: exactly the fields present in the
input, each absent field keeping the row's prior value. -/
def applyTaskUpdate (t : TaskRow) (i : UpdateTaskInput) : TaskRow :=
  { t with
    title := i.title.getD t.title
    description := i.description.getD t.description
    due_date := i.due_date.getD t.due_date
    completed := i.completed.getD t.completed }

/-- `Object.keys(updateData).length === 0`: no optional field is present. -/
def noFieldsPresent (i : UpdateTaskInput) : Bool :=
  i.title.isNone && i.description.isNone && i.due_date.isNone && i.completed.isNone

/-- updateTask handler: select by id only (no user_id in the input or the
where clause); throw `Task with id _ not found` when absent; with no fields
present return the existing row without touching the store; otherwise set
the provided fields on the rows matching the id and return the updated row. -/
def updateTask (db : DB) (i : UpdateTaskInput) : (Except String TaskRow) × DB :=
  match db.tasks.find? (fun t => t.id == i.id) with
  | none => (.error ("Task with id " ++ toString i.id ++ " not found"), db)
  | some t =>
    if noFieldsPresent i then (.ok t, db)
    else
      (.ok (applyTaskUpdate t i),
       { db with tasks := db.tasks.map fun u => if u.id == i.id then applyTaskUpdate u i else u })

/-- deleteTask handler: select by id AND user_id; throw
`Task not found or access denied` when that select is empty; otherwise
delete the matching rows and return success. -/
def deleteTask (db : DB) (i : DeleteTaskInput) : (Except String Bool) × DB :=
  match db.tasks.filter (fun t => t.id == i.id && t.user_id == i.user_id) with
  | [] => (.error "Task not found or access denied", db)
  | _ :: _ =>
    (.ok true,
     { db with tasks := db.tasks.filter fun t => !(t.id == i.id && t.user_id == i.user_id) })

/-- The fixed share template, title and description embedded verbatim. -/
def shareText (t : TaskRow) : String :=
  "Check out my task: \"" ++ t.title ++ "\"\n\nDescription: " ++ t.description
    ++ "\n\n#TaskManagement #Productivity"

/-- shareTask handler: same id-AND-user_id lookup and error as deleteTask;
on a hit format the template from the first selected row.  The handler only
selects, so the store state is returned unchanged on every path. -/
def shareTask (db : DB) (i : ShareTaskInput) : (Except String String) × DB :=
  match db.tasks.find? (fun t => t.id == i.id && t.user_id == i.user_id) with
  | none => (.error "Task not found or access denied", db)
  | some t => (.ok (shareText t), db)

/-- schema.ts `registerUserInputSchema`: `z.string().email()` on the email
(the library's email test is the `emailOk` parameter) and `z.string().min(6)`
on the password. -/
def registerUserInputSchemaOk (emailOk : String → Bool) (i : RegisterUserInput) : Bool :=
  emailOk i.email && decide (6 ≤ i.password.length)

/-- schema.ts `loginUserInputSchema`: `z.string().email()` on the email and
a bare `z.string()` on the password — no length bound. -/
def loginUserInputSchemaOk (emailOk : String → Bool) (i : LoginUserInput) : Bool :=
  emailOk i.email

/-- A concrete stand-in for Bun's bcrypt hasher, used to evaluate the
handlers on concrete inputs: a fixed string in bcrypt's `$2b$10$...` output
shape.  Like every real bcrypt digest it contains no `:` character. -/
def mockBcrypt (_password : String) : String :=
  "$2b$10$N9qo8uLOickgx2ZMRZoMyeIjZAgcfl7p92ldGxad68LJZdL17lhWy"

/-- A concrete stand-in for the sha256 hex digest, used to evaluate the
handlers on concrete inputs. -/
def mockSha256 (s : String) : String :=
  if s = "" then "00" else "ab"

/-- C1: register followed by login with the same email and password fails.
registerUser stores the credential produced by `Bun.password.hash` with the
bcrypt algorithm, whose output alphabet (`$2b$cost$` followed by bcrypt
base64) never contains the character `:`, while loginUser's verifyPassword
parses the stored credential as a `salt:hash` sha256 encoding.  Splitting a
colon-free credential on `:` leaves no hash piece, so verifyPassword fails
closed and loginUser throws `Invalid email or password` for the password
that was just registered.  This refutes the spec's round-trip property: the
credential register stores is not in the encoding login parses. -/
theorem register_then_login_fails (bc sha : String → String) (now : Int) (db : DB)
    (i : RegisterUserInput) (pu : PublicUser) (db2 : DB)
    (hreg : registerUser bc now db i = (.ok pu, db2))
    (hbc : jsSplit ':' (bc i.password) = [bc i.password]) :
    loginUser sha db2 ⟨i.email, i.password⟩ = .error "Invalid email or password" := by
  unfold registerUser at hreg
  cases hfind : db.users.find? (fun u => u.email == i.email) with
  | some u => rw [hfind] at hreg; simp at hreg
  | none =>
    rw [hfind] at hreg
    have hdb2 : db2 = { db with users := db.users ++ [⟨freshUserId db, i.email, bc i.password, now⟩] } := by
      have := congrArg Prod.snd hreg
      simpa using this.symm
    subst hdb2
    unfold loginUser
    simp only [List.find?_append, hfind, Option.none_or]
    have hrow : (List.find? (fun u => u.email == i.email)
        [(⟨freshUserId db, i.email, bc i.password, now⟩ : UserRow)]) =
        some ⟨freshUserId db, i.email, bc i.password, now⟩ := by
      simp
    rw [hrow]
    have hvp : verifyPassword sha i.password (bc i.password) = false := by
      unfold verifyPassword
      rw [hbc]
      simp
    simp [hvp]

/-- C1 witness: the failing input evaluated concretely — on an empty store,
register alice@example.com with password secret123, then log in with the
same credentials; login rejects them. -/
theorem register_then_login_fails_witness :
    loginUser mockSha256
      (registerUser mockBcrypt 0 ⟨[], []⟩ ⟨"alice@example.com", "secret123"⟩).2
      ⟨"alice@example.com", "secret123"⟩ = .error "Invalid email or password" := by
  exact register_then_login_fails mockBcrypt mockSha256 0 ⟨[], []⟩
    ⟨"alice@example.com", "secret123"⟩ ⟨1, "alice@example.com", 0⟩ _ rfl (by decide)

/-- C2 counterexample: two tasks of the same owner share the due date 5 but
are stored with ids in descending order; getUserTasks returns them in store
order [2, 1], not in the id-ascending order [1, 2] the spec's tie-break
demands (getUserTasksSpecOrder, stated from the spec's words, shows the
order the claim expects).  The handler's query orders by due_date only. -/
theorem getUserTasks_no_id_tiebreak :
    (⟨2, 1, "b", "", 5, false, 0⟩ : TaskRow).due_date =
      (⟨1, 1, "a", "", 5, false, 0⟩ : TaskRow).due_date ∧
    (getUserTasks ⟨[], [⟨2, 1, "b", "", 5, false, 0⟩, ⟨1, 1, "a", "", 5, false, 0⟩]⟩ 1).map
      (fun t => t.id) = [2, 1] ∧
    (getUserTasksSpecOrder ⟨[], [⟨2, 1, "b", "", 5, false, 0⟩, ⟨1, 1, "a", "", 5, false, 0⟩]⟩ 1).map
      (fun t => t.id) = [1, 2] := by
  decide

/-- C2 (amended): getUserTasks returns exactly the tasks owned by the given
owner (a permutation of the store's rows with that user_id), sorted
ascending by due_date; equal due dates keep the store's relative row order
(the sort is stable, with no id tie-break); an owner with no tasks or an
unknown owner yields the empty list, not an error. -/
theorem getUserTasks_sorted_stable (db : DB) (uid : Nat) :
    (getUserTasks db uid).Perm (db.tasks.filter fun t => t.user_id == uid) ∧
    (getUserTasks db uid).Sorted dueLe ∧
    (∀ a b : TaskRow, List.Sublist [a, b] (db.tasks.filter fun t => t.user_id == uid) →
      dueLe a b → List.Sublist [a, b] (getUserTasks db uid)) ∧
    ((db.tasks.filter fun t => t.user_id == uid) = [] → getUserTasks db uid = []) := by
  refine ⟨List.perm_insertionSort _ _, List.sorted_insertionSort _ _, ?_, ?_⟩
  · exact fun a b h hab => List.pair_sublist_insertionSort hab h
  · intro h
    unfold getUserTasks
    rw [h]
    rfl

/-- C2 witness: the stability clause applied to a concrete equal-due pair,
and the empty-result clause applied to an owner with no tasks. -/
theorem getUserTasks_sorted_stable_witness :
    List.Sublist [(⟨2, 1, "b", "", 5, false, 0⟩ : TaskRow), ⟨1, 1, "a", "", 5, false, 0⟩]
      (getUserTasks ⟨[], [⟨2, 1, "b", "", 5, false, 0⟩, ⟨1, 1, "a", "", 5, false, 0⟩]⟩ 1) ∧
    getUserTasks ⟨[], [⟨3, 2, "c", "", 7, false, 0⟩]⟩ 1 = [] := by
  constructor
  · exact (getUserTasks_sorted_stable ⟨[], [⟨2, 1, "b", "", 5, false, 0⟩, ⟨1, 1, "a", "", 5, false, 0⟩]⟩ 1).2.2.1
      ⟨2, 1, "b", "", 5, false, 0⟩ ⟨1, 1, "a", "", 5, false, 0⟩ (List.Sublist.refl _) (by decide)
  · exact (getUserTasks_sorted_stable ⟨[], [⟨3, 2, "c", "", 7, false, 0⟩]⟩ 1).2.2.2 rfl

/-- C3: updateTask looks the task up by id only — its input carries no
owner identity (UpdateTaskInput has no user_id field) and the where clause
tests the id alone — so it fails with the `Task with id _ not found` error
exactly when no task with that id exists, and succeeds on every existing
task regardless of who owns it. -/
theorem updateTask_lookup_by_id_only (db : DB) (i : UpdateTaskInput) :
    ((updateTask db i).1 = .error ("Task with id " ++ toString i.id ++ " not found") ↔
      ∀ t ∈ db.tasks, t.id ≠ i.id) ∧
    (∀ t ∈ db.tasks, t.id = i.id → ∃ r, (updateTask db i).1 = .ok r) := by
  unfold updateTask
  cases hfind : db.tasks.find? (fun t => t.id == i.id) with
  | none =>
    rw [List.find?_eq_none] at hfind
    constructor
    · simp only [iff_true_intro rfl, true_iff]
      intro t ht
      simpa using hfind t ht
    · intro t ht hid
      exact absurd (by simpa using hid) (hfind t ht)
  | some t0 =>
    have hmem : t0 ∈ db.tasks := List.mem_of_find?_eq_some hfind
    have hid0 : t0.id = i.id := by simpa using List.find?_some hfind
    constructor
    · constructor
      · intro he
        by_cases hnf : noFieldsPresent i = true <;> simp [hnf] at he
      · intro hall
        exact absurd hid0 (hall t0 hmem)
    · intro t ht hid
      by_cases hnf : noFieldsPresent i = true
      · exact ⟨t0, by simp [hnf]⟩
      · exact ⟨applyTaskUpdate t0 i, by simp [hnf]⟩

/-- C3 witness: a task owned by user 2 is updated through an input naming
only the task id (success), and an absent id yields the not-found error. -/
theorem updateTask_lookup_by_id_only_witness :
    (∃ r, (updateTask ⟨[], [⟨1, 2, "t", "d", 0, false, 0⟩]⟩ ⟨1, some "n", none, none, none⟩).1 = .ok r) ∧
    ((updateTask ⟨[], [⟨1, 2, "t", "d", 0, false, 0⟩]⟩ ⟨9, some "n", none, none, none⟩).1 =
      .error ("Task with id " ++ toString 9 ++ " not found")) := by
  constructor
  · exact (updateTask_lookup_by_id_only ⟨[], [⟨1, 2, "t", "d", 0, false, 0⟩]⟩
      ⟨1, some "n", none, none, none⟩).2 ⟨1, 2, "t", "d", 0, false, 0⟩ (by decide) rfl
  · exact (updateTask_lookup_by_id_only ⟨[], [⟨1, 2, "t", "d", 0, false, 0⟩]⟩
      ⟨9, some "n", none, none, none⟩).1.mpr (by decide)

/-- C4: a login with an email no user has and a login with an existing
email but a failing password both return the same error value with the
same message, `Invalid email or password` — the two failures are
indistinguishable to the caller. -/
theorem login_failures_indistinguishable (sha : String → String) (db : DB)
    (i1 i2 : LoginUserInput) (u : UserRow)
    (h1 : db.users.find? (fun v => v.email == i1.email) = none)
    (h2 : db.users.find? (fun v => v.email == i2.email) = some u)
    (h3 : verifyPassword sha i2.password u.password_hash = false) :
    loginUser sha db i1 = .error "Invalid email or password" ∧
    loginUser sha db i2 = .error "Invalid email or password" ∧
    loginUser sha db i1 = loginUser sha db i2 := by
  have e1 : loginUser sha db i1 = .error "Invalid email or password" := by
    unfold loginUser
    rw [h1]
  have e2 : loginUser sha db i2 = .error "Invalid email or password" := by
    unfold loginUser
    rw [h2]
    simp [h3]
  exact ⟨e1, e2, e1.trans e2.symm⟩

/-- C4 witness: a store with one user; an unknown email and a wrong
password for the known email produce the identical error. -/
theorem login_failures_indistinguishable_witness :
    loginUser mockSha256 ⟨[⟨1, "alice@b.com", "salt:cd", 0⟩], []⟩ ⟨"nobody@b.com", "pw"⟩ =
      .error "Invalid email or password" ∧
    loginUser mockSha256 ⟨[⟨1, "alice@b.com", "salt:cd", 0⟩], []⟩ ⟨"alice@b.com", "wrong"⟩ =
      .error "Invalid email or password" ∧
    loginUser mockSha256 ⟨[⟨1, "alice@b.com", "salt:cd", 0⟩], []⟩ ⟨"nobody@b.com", "pw"⟩ =
      loginUser mockSha256 ⟨[⟨1, "alice@b.com", "salt:cd", 0⟩], []⟩ ⟨"alice@b.com", "wrong"⟩ := by
  exact login_failures_indistinguishable mockSha256 ⟨[⟨1, "alice@b.com", "salt:cd", 0⟩], []⟩
    ⟨"nobody@b.com", "pw"⟩ ⟨"alice@b.com", "wrong"⟩ ⟨1, "alice@b.com", "salt:cd", 0⟩
    (by decide) rfl (by decide)

/-- C5: deleteTask and shareTask throw `Task not found or access denied`
exactly when no stored task has both the given id and the given owner, so a
nonexistent id and another user's existing id are indistinguishable; and a
second delete of the same (id, owner) after a successful delete yields that
same error rather than crashing. -/
theorem delete_share_merge_notfound (db : DB) (i : DeleteTaskInput) :
    ((deleteTask db i).1 = .error "Task not found or access denied" ↔
      ∀ t ∈ db.tasks, ¬(t.id = i.id ∧ t.user_id = i.user_id)) ∧
    ((shareTask db ⟨i.id, i.user_id⟩).1 = .error "Task not found or access denied" ↔
      ∀ t ∈ db.tasks, ¬(t.id = i.id ∧ t.user_id = i.user_id)) ∧
    (∀ db2, deleteTask db i = (.ok true, db2) →
      (deleteTask db2 i).1 = .error "Task not found or access denied") := by
  refine ⟨?_, ?_, ?_⟩
  · unfold deleteTask
    cases hf : db.tasks.filter (fun t => t.id == i.id && t.user_id == i.user_id) with
    | nil =>
      simp only [iff_true_intro rfl, true_iff]
      intro t ht
      have := List.filter_eq_nil_iff.mp hf t ht
      simpa using this
    | cons x xs =>
      constructor
      · intro he
        simp at he
      · intro hall
        have hx : x ∈ db.tasks.filter (fun t => t.id == i.id && t.user_id == i.user_id) := by
          rw [hf]; exact List.mem_cons_self x xs
        have := List.mem_filter.mp hx
        exact absurd (by simpa using this.2) (hall x this.1)
  · unfold shareTask
    cases hs : db.tasks.find? (fun t =>
        t.id == (⟨i.id, i.user_id⟩ : ShareTaskInput).id &&
        t.user_id == (⟨i.id, i.user_id⟩ : ShareTaskInput).user_id) with
    | none =>
      rw [List.find?_eq_none] at hs
      simp only [iff_true_intro rfl, true_iff]
      intro t ht
      simpa using hs t ht
    | some t0 =>
      have hmem : t0 ∈ db.tasks := List.mem_of_find?_eq_some hs
      have hp := List.find?_some hs
      constructor
      · intro he
        simp at he
      · intro hall
        exact absurd (by simpa using hp) (hall t0 hmem)
  · intro db2 hdel
    unfold deleteTask at hdel ⊢
    cases hf : db.tasks.filter (fun t => t.id == i.id && t.user_id == i.user_id) with
    | nil =>
      rw [hf] at hdel
      simp at hdel
    | cons x xs =>
      rw [hf] at hdel
      have hdb2 : db2 = { db with
          tasks := db.tasks.filter fun t => !(t.id == i.id && t.user_id == i.user_id) } := by
        have := congrArg Prod.snd hdel
        simpa using this.symm
      subst hdb2
      have hempty : (db.tasks.filter fun t => !(t.id == i.id && t.user_id == i.user_id)).filter
          (fun t => t.id == i.id && t.user_id == i.user_id) = [] := by
        rw [List.filter_filter]
        simp
      simp only [hempty]

/-- C5 witness: deleting the only task of user 1 and then deleting it again
yields the merged not-found error on the second call. -/
theorem delete_share_merge_notfound_witness :
    (deleteTask ⟨[], []⟩ ⟨1, 1⟩).1 = .error "Task not found or access denied" := by
  exact (delete_share_merge_notfound ⟨[], [⟨1, 1, "t", "d", 0, false, 0⟩]⟩ ⟨1, 1⟩).2.2
    ⟨[], []⟩ rfl

/-- C6: on an existing task, updateTask changes exactly the fields present
in the partial input — every absent field keeps its prior value and id,
owner and created_at never change — and when no optional field is present
it returns the task unchanged without touching the store (a no-op, not an
error). -/
theorem updateTask_frame (db : DB) (i : UpdateTaskInput) (t : TaskRow)
    (h : db.tasks.find? (fun x => x.id == i.id) = some t) :
    (∃ r, (updateTask db i).1 = .ok r ∧
      r.id = t.id ∧ r.user_id = t.user_id ∧ r.created_at = t.created_at ∧
      r.title = i.title.getD t.title ∧ r.description = i.description.getD t.description ∧
      r.due_date = i.due_date.getD t.due_date ∧ r.completed = i.completed.getD t.completed) ∧
    (noFieldsPresent i = true → updateTask db i = (.ok t, db)) := by
  constructor
  · by_cases hnf : noFieldsPresent i = true
    · have h4 := hnf
      simp only [noFieldsPresent, Bool.and_eq_true, Option.isNone_iff_eq_none] at h4
      obtain ⟨⟨⟨e1, e2⟩, e3⟩, e4⟩ := h4
      refine ⟨t, ?_, rfl, rfl, rfl, ?_, ?_, ?_, ?_⟩
      · unfold updateTask
        rw [h]
        simp [hnf]
      · rw [e1]; rfl
      · rw [e2]; rfl
      · rw [e3]; rfl
      · rw [e4]; rfl
    · refine ⟨applyTaskUpdate t i, ?_, rfl, rfl, rfl, rfl, rfl, rfl, rfl⟩
      unfold updateTask
      rw [h]
      simp [hnf]
  · intro hnf
    unfold updateTask
    rw [h]
    simp [hnf]

/-- C6 witness: updating only the title changes only the title, and the
all-absent update returns the stored task and store unchanged. -/
theorem updateTask_frame_witness :
    (∃ r, (updateTask ⟨[], [⟨1, 1, "t", "d", 0, false, 0⟩]⟩ ⟨1, some "new", none, none, none⟩).1 = .ok r ∧
      r.id = 1 ∧ r.user_id = 1 ∧ r.created_at = 0 ∧
      r.title = "new" ∧ r.description = "d" ∧ r.due_date = 0 ∧ r.completed = false) ∧
    updateTask ⟨[], [⟨1, 1, "t", "d", 0, false, 0⟩]⟩ ⟨1, none, none, none, none⟩ =
      (.ok ⟨1, 1, "t", "d", 0, false, 0⟩, ⟨[], [⟨1, 1, "t", "d", 0, false, 0⟩]⟩) := by
  constructor
  · exact (updateTask_frame ⟨[], [⟨1, 1, "t", "d", 0, false, 0⟩]⟩ ⟨1, some "new", none, none, none⟩
      ⟨1, 1, "t", "d", 0, false, 0⟩ rfl).1
  · exact (updateTask_frame ⟨[], [⟨1, 1, "t", "d", 0, false, 0⟩]⟩ ⟨1, none, none, none, none⟩
      ⟨1, 1, "t", "d", 0, false, 0⟩ rfl).2 rfl

/-- C7: on a task owned by the caller, shareTask returns exactly the fixed
template with title and description embedded verbatim — no escaping or
sanitization — and leaves the store unchanged (no persistence side
effect). -/
theorem shareTask_template (db : DB) (i : ShareTaskInput) (t : TaskRow)
    (h : db.tasks.find? (fun x => x.id == i.id && x.user_id == i.user_id) = some t) :
    shareTask db i = (.ok ("Check out my task: \"" ++ t.title ++ "\"\n\nDescription: "
      ++ t.description ++ "\n\n#TaskManagement #Productivity"), db) := by
  unfold shareTask
  rw [h]
  rfl

/-- C7 witness: the spec's own example — a title with quotes and an
ampersand and an empty description pass through verbatim, with an empty
segment between the markers. -/
theorem shareTask_template_witness :
    shareTask ⟨[], [⟨1, 1, "Fix \"critical\" bug & update docs", "", 5, false, 0⟩]⟩ ⟨1, 1⟩ =
      (.ok "Check out my task: \"Fix \"critical\" bug & update docs\"\n\nDescription: \n\n#TaskManagement #Productivity",
       ⟨[], [⟨1, 1, "Fix \"critical\" bug & update docs", "", 5, false, 0⟩]⟩) := by
  exact shareTask_template ⟨[], [⟨1, 1, "Fix \"critical\" bug & update docs", "", 5, false, 0⟩]⟩
    ⟨1, 1⟩ ⟨1, 1, "Fix \"critical\" bug & update docs", "", 5, false, 0⟩ rfl

/-- C8: password verification is total and fails closed: whenever the
stored credential parses without a salt piece or without a hash piece
(in particular when the `:` separator is missing), verifyPassword returns
false for every supplied password, and a login against such a stored
credential returns `Invalid email or password` rather than crashing. -/
theorem verifyPassword_malformed_false (sha : String → String) (stored : String)
    (hmal : (jsSplit ':' stored).getD 0 "" = "" ∨ (jsSplit ':' stored).getD 1 "" = "") :
    (∀ password, verifyPassword sha password stored = false) ∧
    (∀ db i u, db.users.find? (fun v => v.email == i.email) = some u →
      u.password_hash = stored → loginUser sha db i = .error "Invalid email or password") := by
  have hv : ∀ password, verifyPassword sha password stored = false := by
    intro pw
    unfold verifyPassword
    rcases hmal with hm | hm <;> rw [List.getD_eq_getElem?_getD] at hm <;> simp [hm]
  refine ⟨hv, ?_⟩
  intro db i u hfind hph
  unfold loginUser
  rw [hfind]
  have hvp : verifyPassword sha i.password u.password_hash = false := by
    rw [hph]
    exact hv i.password
  simp [hvp]

/-- C8 witness: the separator-free credential from the handler's own test
suite fails verification, and login with it fails with the generic error. -/
theorem verifyPassword_malformed_false_witness :
    verifyPassword mockSha256 "securePassword123" "malformed_hash_without_salt" = false ∧
    loginUser mockSha256 ⟨[⟨1, "test@example.com", "malformed_hash_without_salt", 0⟩], []⟩
      ⟨"test@example.com", "securePassword123"⟩ = .error "Invalid email or password" := by
  constructor
  · exact (verifyPassword_malformed_false mockSha256 "malformed_hash_without_salt"
      (by decide)).1 "securePassword123"
  · exact (verifyPassword_malformed_false mockSha256 "malformed_hash_without_salt"
      (by decide)).2 ⟨[⟨1, "test@example.com", "malformed_hash_without_salt", 0⟩], []⟩
      ⟨"test@example.com", "securePassword123"⟩ ⟨1, "test@example.com", "malformed_hash_without_salt", 0⟩
      rfl rfl

/-- C9: registering an email some user already has (by exact,
case-sensitive string equality) fails with `Email already registered` and
leaves the store untouched, while an email no user has — including one
differing from an existing email only in letter case — is inserted as a new
row and the registration succeeds. -/
theorem registerUser_duplicate_case_sensitive (bc : String → String) (now : Int)
    (db : DB) (i : RegisterUserInput) :
    ((∃ u ∈ db.users, u.email = i.email) →
      registerUser bc now db i = (.error "Email already registered", db)) ∧
    ((∀ u ∈ db.users, u.email ≠ i.email) →
      registerUser bc now db i =
        (.ok ⟨freshUserId db, i.email, now⟩,
         ⟨db.users ++ [⟨freshUserId db, i.email, bc i.password, now⟩], db.tasks⟩)) := by
  constructor
  · rintro ⟨u, hu, he⟩
    unfold registerUser
    cases hfind : db.users.find? (fun v => v.email == i.email) with
    | some v => rfl
    | none =>
      rw [List.find?_eq_none] at hfind
      exact absurd (by simpa using he) (hfind u hu)
  · intro hall
    unfold registerUser
    have hnone : db.users.find? (fun v => v.email == i.email) = none := by
      rw [List.find?_eq_none]
      intro x hx
      simpa using hall x hx
    rw [hnone]

/-- C9 witness: with A@b.com registered, a second A@b.com registration
fails without inserting, while a@b.com — the same letters in lower case —
registers as a distinct user. -/
theorem registerUser_duplicate_case_sensitive_witness :
    registerUser mockBcrypt 0 ⟨[⟨1, "A@b.com", "x:y", 0⟩], []⟩ ⟨"A@b.com", "pw"⟩ =
      (.error "Email already registered", ⟨[⟨1, "A@b.com", "x:y", 0⟩], []⟩) ∧
    registerUser mockBcrypt 0 ⟨[⟨1, "A@b.com", "x:y", 0⟩], []⟩ ⟨"a@b.com", "pw"⟩ =
      (.ok ⟨2, "a@b.com", 0⟩,
       ⟨[⟨1, "A@b.com", "x:y", 0⟩, ⟨2, "a@b.com", mockBcrypt "pw", 0⟩], []⟩) := by
  constructor
  · exact (registerUser_duplicate_case_sensitive mockBcrypt 0 ⟨[⟨1, "A@b.com", "x:y", 0⟩], []⟩
      ⟨"A@b.com", "pw"⟩).1 ⟨⟨1, "A@b.com", "x:y", 0⟩, List.mem_singleton.mpr rfl, rfl⟩
  · exact (registerUser_duplicate_case_sensitive mockBcrypt 0 ⟨[⟨1, "A@b.com", "x:y", 0⟩], []⟩
      ⟨"a@b.com", "pw"⟩).2 (by decide)

/-- C10: the registration input schema rejects every password shorter than
6 characters (so the handler is never reached with one), while the login
input schema's acceptance does not depend on the password at all — it
imposes no minimum length. -/
theorem registerSchema_rejects_short_password (emailOk : String → Bool) (i : RegisterUserInput)
    (h : i.password.length < 6) :
    registerUserInputSchemaOk emailOk i = false ∧
    (∀ e p1 p2, loginUserInputSchemaOk emailOk ⟨e, p1⟩ = loginUserInputSchemaOk emailOk ⟨e, p2⟩) := by
  constructor
  · unfold registerUserInputSchemaOk
    rw [decide_eq_false (Nat.not_le.mpr h), Bool.and_false]
  · intro e p1 p2
    rfl

/-- C10 witness: a 5-character password is rejected by the registration
schema and ignored by the login schema. -/
theorem registerSchema_rejects_short_password_witness :
    registerUserInputSchemaOk (fun _ => true) ⟨"a@b.com", "12345"⟩ = false ∧
    loginUserInputSchemaOk (fun _ => true) ⟨"a@b.com", "12345"⟩ =
      loginUserInputSchemaOk (fun _ => true) ⟨"a@b.com", "123456789"⟩ := by
  constructor
  · exact (registerSchema_rejects_short_password (fun _ => true) ⟨"a@b.com", "12345"⟩ (by decide)).1
  · exact (registerSchema_rejects_short_password (fun _ => true) ⟨"a@b.com", "12345"⟩ (by decide)).2
      "a@b.com" "12345" "123456789"
